import Mathlib

/-!
# Verification of the rquent concurrent image pipeline

Shallow embedding of the pipeline engine from `src/pipeline.go`,
`src/image.go` and `src/util.go` of the rquent repository, together
with proofs of the specification claims about it.

The concurrent pipeline (worker pools connected by Go channels, a single
failure handler, a shared in-flight counter guarded by a mutex, and a
one-shot shutdown broadcast) is embedded as an explicit transition system
on a `PipeState` record: each constructor of `Step` is one atomic action
of one component of the Go program, and channels become lists of pending
messages.  Pure helpers (`NewRqError`, `handleError`, `cleanupImage`,
`stopWorkers`, `hexify`, `getPrevalentColors`, ...) keep the names of the
Go functions they embed.
-/

namespace Rquent

/-! ## Data model (src/pipeline.go lines 17-85, src/image.go lines 109-128) -/

/-- The three stages that own worker pools and can be retry targets
(`downloadChn`, `summarizeChn`, `cleanupChn` in `RqPool`). -/
inductive Stage
  | download
  | summarize
  | cleanup
deriving DecidableEq, Repr

/-- `color.NRGBA`: four `uint8` components. -/
structure NRGBA where
  r : Fin 256
  g : Fin 256
  b : Fin 256
  a : Fin 256
deriving DecidableEq, Repr

/-- `var PlaceholderColor = color.NRGBA{}` (src/image.go line 139): the zero
value, i.e. fully transparent black. -/
def PlaceholderColor : NRGBA := ⟨0, 0, 0, 0⟩

/-- `colorSummary` (src/image.go lines 117-119): the most prevalent colors in
sorted order, most prevalent first. -/
structure colorSummary where
  colors : List NRGBA
deriving DecidableEq, Repr

/-- `RqImage` (src/image.go lines 109-115).  The unused `size` and per-image
`nFails` fields are dropped; `summary` starts empty as in `NewRqImage`. -/
structure RqImage where
  URL : String
  filePath : String
  summary : colorSummary
deriving DecidableEq, Repr

/-- `NewRqImage` (src/image.go lines 121-128). -/
def NewRqImage (url : String) : RqImage :=
  { URL := url, filePath := "", summary := ⟨[]⟩ }

/-- `RqJob` (src/pipeline.go lines 47-53).  `retryChn` holds the identity of
the stage channel the job is re-submitted to on a retryable failure (a Go
channel reference; `none` is the nil channel).  `nextChn` is not stored: the
step relation routes forwarded jobs directly, exactly as the workers rebind
it on every dequeue.  The unused `doneFlag` is dropped.  `id` is a ghost
field: the admission index, identifying the distinct job value created for
one source line (Go job values have no explicit identifier; identity is
which admission the value descends from). -/
structure RqJob where
  id : Nat
  image : RqImage
  retryChn : Option Stage
  nFails : Nat
deriving DecidableEq, Repr

/-- `RqErrorType` constants (src/pipeline.go lines 68-74). -/
inductive RqErrorType
  | download
  | summarize
  | save
  | cleanup
  | noRetry
deriving DecidableEq, Repr

/-- `RqError` (src/pipeline.go lines 60-64). -/
structure RqError where
  job : RqJob
  errorType : RqErrorType
  errorMsg : String
deriving DecidableEq, Repr

/-- `const RqJobMaxFails = 3` (src/pipeline.go line 76). -/
def RqJobMaxFails : Nat := 3

/-- `NewRqError` (src/pipeline.go lines 78-85): the job is passed by value and
its failure count is incremented once before it is stored in the record. -/
def NewRqError (job : RqJob) (errorType : RqErrorType) (message : String) : RqError :=
  { job := { job with nFails := job.nFails + 1 }
    errorType := errorType
    errorMsg := message }

/-- The error type a failing stage function reports
(`RqErrorDownload` / `RqErrorSummarize` / `RqErrorCleanup`). -/
def stageErrorType : Stage → RqErrorType
  | .download => .download
  | .summarize => .summarize
  | .cleanup => .cleanup

/-! ## uint64 counter arithmetic

`imageCount` is a `uint64` updated with `atomic.AddUint64`; the decrement is
`atomic.AddUint64(&pipe.imageCount, ^uint64(0))`, a wrapping add of 2^64-1. -/

/-- 2 ^ 64, the modulus of Go `uint64` arithmetic. -/
def UINT64 : Nat := 18446744073709551616

/-- `atomic.AddUint64(&c, 1)`. -/
def incUint64 (c : Nat) : Nat := (c + 1) % UINT64

/-- `atomic.AddUint64(&c, ^uint64(0))`: wrapping decrement. -/
def decUint64 (c : Nat) : Nat := (c + (UINT64 - 1)) % UINT64

/-! ## Init (src/pipeline.go lines 127-140) -/

/-- The configuration state `Init` validates: the three worker counts from
`PipeConfig` (Go `int`, so possibly negative) and whether `WithSource` /
`WithOutput` have been called (`sourceURLs` / `outFile` non-nil). -/
structure InitConfig where
  nDownload : Int
  nSummarize : Int
  nCleanup : Int
  hasSource : Bool
  hasOutput : Bool
deriving DecidableEq, Repr

/-- `Init` (src/pipeline.go lines 127-140): `some msg` is the returned error,
`none` means the pipeline is returned with a nil error. -/
def Init (cfg : InitConfig) : Option String :=
  if cfg.nDownload ≤ 0 ∨ cfg.nSummarize ≤ 0 ∨ cfg.nCleanup ≤ 0 then
    some "Pipeline config values for workers must be greater than 0"
  else if cfg.hasSource = false then
    some "Pipeline has no source set. Use method WithSource to set it."
  else if cfg.hasOutput = false then
    some "Pipeline has no output file set. Use method WithSource to set it."
  else
    none

/-! ## stopWorkers and the one-shot latch (src/pipeline.go lines 222-230) -/

/-- The state touched by `stopWorkers`: how many shutdown tokens have been
sent on `doneChn`, and whether the `sync.Once` latch (`stopOnce`) has
fired. -/
structure StopState where
  doneTokens : Nat
  stopOnceDone : Bool
deriving DecidableEq, Repr

/-- `stopWorkers` (src/pipeline.go lines 222-230): under the one-shot latch it
sends `nDownload + nSummarize + nCleanup + 1` tokens (one per stage worker
plus one for the error handler); once the latch has fired every further
invocation is a no-op.  `sync.Once` serializes concurrent callers, so
modelling invocations sequentially is faithful. -/
def stopWorkers (nDownload nSummarize nCleanup : Nat) (st : StopState) : StopState :=
  let nWorkers := nDownload + nSummarize + nCleanup + 1
  if st.stopOnceDone then st
  else { doneTokens := st.doneTokens + nWorkers, stopOnceDone := true }

/-- `k` successive invocations of `stopWorkers` starting from the fresh pool
state (no tokens sent, latch not fired). -/
def callStopWorkers (nDownload nSummarize nCleanup : Nat) : Nat → StopState
  | 0 => { doneTokens := 0, stopOnceDone := false }
  | k + 1 => stopWorkers nDownload nSummarize nCleanup
      (callStopWorkers nDownload nSummarize nCleanup k)

/-! ## Pipeline state

One state of the whole pipeline run.  Every Go channel of `RqPool` becomes
the list of messages it currently holds; `saved` is the list of jobs whose
result row the Result Sink (`writeResults`) has written, `evicted` the list
of jobs removed terminally by the failure handler, `removedFiles` the ghost
log of paths passed to `os.Remove`, and `outFile` the lines written to the
output.  `started` counts the jobs created by `readURLs` (giving ghost ids
to admissions). -/

structure PipeState where
  source : List String
  started : Nat
  downloadChn : List RqJob
  summarizeChn : List RqJob
  cleanupChn : List RqJob
  saveChn : List RqJob
  errorChn : List RqError
  saved : List RqJob
  evicted : List RqJob
  outFile : List String
  removedFiles : List String
  imageCount : Nat
  readURLsDone : Bool
  stopped : Bool
deriving DecidableEq, Repr

/-- Send a job on the input channel of stage `st` (the failure handler's
`jobError.job.retryChn <- jobError.job`, src/pipeline.go line 211). -/
def pushChn (st : Stage) (j : RqJob) (s : PipeState) : PipeState :=
  match st with
  | .download => { s with downloadChn := s.downloadChn ++ [j] }
  | .summarize => { s with summarizeChn := s.summarizeChn ++ [j] }
  | .cleanup => { s with cleanupChn := s.cleanupChn ++ [j] }

/-- `handleError` (src/pipeline.go lines 196-212) acting on the pipeline
state after one `RqError` has been received from `errorChn`.  The job is
terminal when `errorType == RqErrorNoRetry`, or `nFails >= RqJobMaxFails`,
or `retryChn == nil` (the nil-channel disjunct is the `none` match arm);
then the possible remaining image file is removed best-effort, the job
leaves the pipeline and `imageCount` is decremented.  Otherwise the job
(whose count `NewRqError` already incremented) is sent back to `retryChn`,
the input channel of the stage that failed. -/
def handleError (s : PipeState) (e : RqError) : PipeState :=
  match e.job.retryChn with
  | none =>
      { s with removedFiles := s.removedFiles ++ [e.job.image.filePath]
               evicted := s.evicted ++ [e.job]
               imageCount := decUint64 s.imageCount }
  | some st =>
      if e.errorType = RqErrorType.noRetry ∨ RqJobMaxFails ≤ e.job.nFails then
        { s with removedFiles := s.removedFiles ++ [e.job.image.filePath]
                 evicted := s.evicted ++ [e.job]
                 imageCount := decUint64 s.imageCount }
      else
        pushChn st e.job s

/-- What `cleanupImage` sent: the job forwarded on `job.nextChn`, or an
`RqError` on the error channel. -/
inductive CleanupSent
  | next (j : RqJob)
  | failure (e : RqError)
deriving DecidableEq, Repr

/-- Result of one `cleanupImage` call: what was sent, and which paths were
passed to `os.Remove`. -/
structure CleanupResult where
  sent : CleanupSent
  removed : List String
deriving DecidableEq, Repr

/-- `cleanupImage` (src/pipeline.go lines 374-390).  `removeOk` abstracts
whether `os.Remove` succeeds; `msg` is the error message on failure.  A job
whose image was never downloaded (`filePath == ""`) is forwarded untouched. -/
def cleanupImage (job : RqJob) (removeOk : Bool) (msg : String) : CleanupResult :=
  if job.image.filePath = "" then
    { sent := CleanupSent.next job, removed := [] }
  else if removeOk then
    { sent := CleanupSent.next { job with image := { job.image with filePath := "" } }
      removed := [job.image.filePath] }
  else
    { sent := CleanupSent.failure (NewRqError job RqErrorType.cleanup msg)
      removed := [] }

/-! ## Color summarization and row serialization
(src/image.go lines 130-191, src/util.go lines 12-15) -/

/-- The lowercase hexadecimal digit for `n < 16`, as produced by the
`fmt` verb `%x`. -/
def hexDigit (n : Nat) : Char :=
  if n < 10 then Char.ofNat (48 + n) else Char.ofNat (87 + n)

/-- The two characters `fmt.Sprintf("%.2x", v)` produces for a `uint8`
value `v`: since `v < 256`, exactly two lowercase hex digits (zero
padded). -/
def hexByteChars (v : Fin 256) : List Char :=
  [hexDigit (v.val / 16), hexDigit (v.val % 16)]

/-- `hexify` (src/util.go lines 12-15):
`fmt.Sprintf("#%.2x%.2x%.2x", c.R, c.G, c.B)` -- a hash sign followed by
the red, green and blue components as two lowercase hex digits each; the
alpha component is not printed. -/
def hexify (c : NRGBA) : String :=
  String.mk ('#' :: (hexByteChars c.r ++ hexByteChars c.g ++ hexByteChars c.b))

/-- `GetHexSummary` (src/image.go lines 130-136): one hex string per
summary color, in order. -/
def GetHexSummary (img : RqImage) : List String :=
  img.summary.colors.map hexify

/-- `strings.Join(elems, sep)`. -/
def goJoin (sep : String) : List String → String
  | [] => ""
  | [s] => s
  | s :: rest => s ++ sep ++ goJoin sep rest

/-- The row `writeResults` writes for one job from `saveChn`
(src/pipeline.go lines 163-165): the URL, then the hex summary fields,
joined with commas, plus one newline. -/
def resultRow (job : RqJob) : String :=
  goJoin "," (job.image.URL :: GetHexSummary job.image) ++ "\n"

/-- `updateMostFrequentColors` (src/image.go lines 142-166).  `mostColors`
is the Go slice of length 3, `counts` the current frequency map (Go map
reads default to 0).  Case 1: `c` is already one of the three -- swap it
one slot forward if its count now beats its predecessor (the `break` makes
the two loop iterations an if/else-if chain).  Case 2: `c` beats the last
slot -- it fills the first placeholder slot, or replaces the last one. -/
def updateMostFrequentColors (mostColors : List NRGBA) (c : NRGBA)
    (counts : NRGBA → Nat) : List NRGBA :=
  if c = mostColors.getD 0 PlaceholderColor ∨ c = mostColors.getD 1 PlaceholderColor ∨
      c = mostColors.getD 2 PlaceholderColor then
    if c = mostColors.getD 1 PlaceholderColor ∧
        counts (mostColors.getD 0 PlaceholderColor) < counts c then
      (mostColors.set 0 (mostColors.getD 1 PlaceholderColor)).set 1
        (mostColors.getD 0 PlaceholderColor)
    else if c = mostColors.getD 2 PlaceholderColor ∧
        counts (mostColors.getD 1 PlaceholderColor) < counts c then
      (mostColors.set 1 (mostColors.getD 2 PlaceholderColor)).set 2
        (mostColors.getD 1 PlaceholderColor)
    else
      mostColors
  else
    if counts (mostColors.getD 2 PlaceholderColor) < counts c then
      if mostColors.getD 0 PlaceholderColor = PlaceholderColor then mostColors.set 0 c
      else if mostColors.getD 1 PlaceholderColor = PlaceholderColor then mostColors.set 1 c
      else mostColors.set 2 c
    else
      mostColors

/-- The pixel loop of `getPrevalentColors` (src/image.go lines 177-187):
for each pixel, its NRGBA conversion gets alpha forced to 255, its count is
bumped, and the top-3 slice is updated. -/
def getPrevalentColorsLoop :
    List NRGBA → (NRGBA → Nat) → List NRGBA → List NRGBA
  | [], _, mostColors => mostColors
  | p :: rest, counts, mostColors =>
    let c : NRGBA := { p with a := 255 }
    let counts2 : NRGBA → Nat := fun x => if x = c then counts c + 1 else counts x
    getPrevalentColorsLoop rest counts2 (updateMostFrequentColors mostColors c counts2)

/-- `getPrevalentColors` (src/image.go lines 169-191).  The image is
abstracted to its sequence of already-converted NRGBA pixels in the
x-outer, y-inner iteration order (`image.Image` and `color.NRGBAModel` are
external collaborators).  The slice starts as three placeholders and the
initial `counts[PlaceholderColor] = 0` write stores the map's zero value.
The returned error is always nil. -/
def getPrevalentColors (pixels : List NRGBA) : colorSummary :=
  ⟨getPrevalentColorsLoop pixels (fun _ => 0)
    [PlaceholderColor, PlaceholderColor, PlaceholderColor]⟩

/-! ## The transition system

Each constructor is one atomic action of one component of the Go program.
Channel receives may take any pending message (over-approximating Go's
delivery order), so every real interleaving is covered.

Granularity: a worker's dequeue, stage-function call and resulting send are
one step (a worker holds one job at a time and what it does with it is
deterministic), and the Result Sink's and failure handler's counter
decrement happens in the step that consumes the job.  The completion check
`isDone` (src/pipeline.go lines 215-219) runs some time *after* a decrement
(`atomic.AddUint64` is not under the mutex -- see the `SyncOp` analysis
below), so it is a separate `triggerStop` step, enabled whenever the
condition `readURLsDone && imageCount == 0` holds and at least one
decrement has happened (every decrement appends to `saved` or `evicted`,
so that side condition is expressed through those lists). -/

inductive Step : PipeState → PipeState → Prop
  /-- `readURLs` (lines 143-158) admits one source line: increments
  `imageCount`, then sends a fresh job into `downloadChn`. -/
  | feed (s : PipeState) (u : String) (rest : List String) :
      s.source = u :: rest →
      Step s { s with
        source := rest
        started := s.started + 1
        imageCount := incUint64 s.imageCount
        downloadChn := s.downloadChn ++
          [{ id := s.started, image := NewRqImage u, retryChn := none, nFails := 0 }] }
  /-- `readURLs` exhausts its scanner and sets `readURLsDone` under the
  mutex (lines 155-157). -/
  | sourceDone (s : PipeState) :
      s.source = [] → s.readURLsDone = false →
      Step s { s with readURLsDone := true }
  /-- `workDownload` (lines 233-247) + `downloadImage` (lines 326-344),
  success: the worker rebinds `retryChn`, the image is downloaded to a temp
  file whose name becomes `filePath`, and the job goes to `summarizeChn`. -/
  | downloadOk (s : PipeState) (pre post : List RqJob) (j : RqJob) (path : String) :
      s.downloadChn = pre ++ j :: post →
      Step s { s with
        downloadChn := pre ++ post
        summarizeChn := s.summarizeChn ++
          [{ j with retryChn := some Stage.download
                    image := { j.image with filePath := path } }] }
  /-- `workDownload` + `downloadImage`, failure (temp-file creation or the
  HTTP fetch): an `RqErrorDownload` record goes to `errorChn`. -/
  | downloadFail (s : PipeState) (pre post : List RqJob) (j : RqJob) (msg : String) :
      s.downloadChn = pre ++ j :: post →
      Step s { s with
        downloadChn := pre ++ post
        errorChn := s.errorChn ++
          [NewRqError { j with retryChn := some Stage.download } RqErrorType.download msg] }
  /-- `workSummarize` (lines 250-264) + `summarizeImage` (lines 347-371),
  success: the summary is stored and the job goes to `cleanupChn`. -/
  | summarizeOk (s : PipeState) (pre post : List RqJob) (j : RqJob) (summ : colorSummary) :
      s.summarizeChn = pre ++ j :: post →
      Step s { s with
        summarizeChn := pre ++ post
        cleanupChn := s.cleanupChn ++
          [{ j with retryChn := some Stage.summarize
                    image := { j.image with summary := summ } }] }
  /-- `workSummarize` + `summarizeImage`, failure (open, decode or
  summarize): an `RqErrorSummarize` record goes to `errorChn`. -/
  | summarizeFail (s : PipeState) (pre post : List RqJob) (j : RqJob) (msg : String) :
      s.summarizeChn = pre ++ j :: post →
      Step s { s with
        summarizeChn := pre ++ post
        errorChn := s.errorChn ++
          [NewRqError { j with retryChn := some Stage.summarize } RqErrorType.summarize msg] }
  /-- `workCleanup` (lines 267-281) + `cleanupImage` (lines 374-390): the
  worker rebinds `retryChn` and acts according to `cleanupImage`. -/
  | cleanupStep (s : PipeState) (pre post : List RqJob) (j : RqJob)
      (removeOk : Bool) (msg : String) :
      s.cleanupChn = pre ++ j :: post →
      Step s
        (match cleanupImage { j with retryChn := some Stage.cleanup } removeOk msg with
          | { sent := CleanupSent.next j2, removed := rm } =>
              { s with cleanupChn := pre ++ post
                       saveChn := s.saveChn ++ [j2]
                       removedFiles := s.removedFiles ++ rm }
          | { sent := CleanupSent.failure e, removed := rm } =>
              { s with cleanupChn := pre ++ post
                       errorChn := s.errorChn ++ [e]
                       removedFiles := s.removedFiles ++ rm })
  /-- `writeResults` (lines 161-180), successful write: the row is written,
  the job leaves the pipeline, `imageCount` is decremented. -/
  | writeOk (s : PipeState) (pre post : List RqJob) (j : RqJob) :
      s.saveChn = pre ++ j :: post →
      Step s { s with
        saveChn := pre ++ post
        saved := s.saved ++ [j]
        outFile := s.outFile ++ [resultRow j]
        imageCount := decUint64 s.imageCount }
  /-- `writeResults`, failed write: an `RqErrorNoRetry` record goes to
  `errorChn` and the loop continues (no decrement, no row). -/
  | writeFail (s : PipeState) (pre post : List RqJob) (j : RqJob) (msg : String) :
      s.saveChn = pre ++ j :: post →
      Step s { s with
        saveChn := pre ++ post
        errorChn := s.errorChn ++ [NewRqError j RqErrorType.noRetry msg] }
  /-- `handleErrors` (lines 182-193) receives one record and applies
  `handleError` to it. -/
  | handleOne (s : PipeState) (pre post : List RqError) (e : RqError) :
      s.errorChn = pre ++ e :: post →
      Step s (handleError { s with errorChn := pre ++ post } e)
  /-- `isDone` (lines 215-219) observed true by the Result Sink or the
  failure handler after one of their decrements, followed by
  `stopWorkers`: the one-shot broadcast fires.  Enabled only once some
  decrement has occurred (each decrement appends to `saved` or
  `evicted`). -/
  | triggerStop (s : PipeState) :
      s.readURLsDone = true → s.imageCount = 0 → s.stopped = false →
      s.saved.length + s.evicted.length ≠ 0 →
      Step s { s with stopped := true }

/-- The state `Run` starts from: empty channels, zero counter, flags
down. -/
def initState (urls : List String) : PipeState :=
  { source := urls
    started := 0
    downloadChn := []
    summarizeChn := []
    cleanupChn := []
    saveChn := []
    errorChn := []
    saved := []
    evicted := []
    outFile := []
    removedFiles := []
    imageCount := 0
    readURLsDone := false
    stopped := false }

/-- States of a run of the pipeline on the given source lines. -/
inductive Reachable (urls : List String) : PipeState → Prop
  | init : Reachable urls (initState urls)
  | step {s s2 : PipeState} : Reachable urls s → Step s s2 → Reachable urls s2

/-! ## The global accounting invariant -/

/-- All jobs sitting in the four stage channels. -/
def chanJobs (s : PipeState) : List RqJob :=
  s.downloadChn ++ s.summarizeChn ++ s.cleanupChn ++ s.saveChn

/-- The jobs carried by pending failure records. -/
def jobsOf (l : List RqError) : List RqJob := l.map RqError.job

/-- Every job that has been admitted but is not yet saved or evicted: it is
in a stage channel or inside a pending failure record. -/
def inflightJobs (s : PipeState) : List RqJob :=
  chanJobs s ++ jobsOf s.errorChn

/-- How many jobs in `l` carry admission id `i`. -/
def idCount (i : Nat) : List RqJob → Nat
  | [] => 0
  | j :: rest => (if j.id = i then 1 else 0) + idCount i rest

/-- The run invariant.  `src`: lines are admitted one by one.  `lens` and
`ids`: the admitted jobs are partitioned between in-flight, saved and
evicted -- each admission id occurs exactly once overall.  `cnt`: the
shared counter equals the number of in-flight jobs.  `stopFlag`,
`stopDec`: the shutdown broadcast fired only after the completion
condition truly held.  `doneSrc`: `readURLsDone` implies the source is
exhausted.  `failsChan`/`failsErr`/`failsDone`: failure counts stay within
the retry bound everywhere. -/
structure Inv (urls : List String) (s : PipeState) : Prop where
  src : s.started + s.source.length = urls.length
  lens : (inflightJobs s).length + s.saved.length + s.evicted.length = s.started
  ids : ∀ i : Nat,
    idCount i (inflightJobs s) + idCount i s.saved + idCount i s.evicted
      = if i < s.started then 1 else 0
  cnt : s.imageCount = (inflightJobs s).length
  stopFlag : s.stopped = true → s.readURLsDone = true ∧ s.imageCount = 0
  doneSrc : s.readURLsDone = true → s.source = []
  stopDec : s.stopped = true → s.saved.length + s.evicted.length ≠ 0
  failsDl : ∀ j ∈ s.downloadChn, j.nFails + 1 ≤ RqJobMaxFails
  failsSm : ∀ j ∈ s.summarizeChn, j.nFails + 1 ≤ RqJobMaxFails
  failsCl : ∀ j ∈ s.cleanupChn, j.nFails + 1 ≤ RqJobMaxFails
  failsSv : ∀ j ∈ s.saveChn, j.nFails + 1 ≤ RqJobMaxFails
  failsErr : ∀ e ∈ s.errorChn, e.job.nFails ≤ RqJobMaxFails
  failsSaved : ∀ j ∈ s.saved, j.nFails ≤ RqJobMaxFails
  failsEvicted : ∀ j ∈ s.evicted, j.nFails ≤ RqJobMaxFails
  outLen : s.outFile.length = s.saved.length

/-! ## The decrement / completion-check synchronization structure

`writeResults` and `handleError` decrement the shared counter with
`atomic.AddUint64` (src/pipeline.go lines 170 and 203) and only afterwards
call `isDone` (lines 215-219), which locks `pipe.mux`, reads
`readURLsDone && imageCount == 0` and unlocks.  The operation sequences
below transcribe those two code paths. -/

/-- One operation on the shared completion state. -/
inductive SyncOp
  | atomicDec
  | mutexAcquire
  | readDoneAndCount
  | mutexRelease
  | maybeStopCall
deriving DecidableEq, Repr

/-- The operations `writeResults` performs on the shared completion state
after a successful write (src/pipeline.go lines 170-177): the atomic
decrement, then `isDone` (mutex lock, read, unlock), then possibly
`stopWorkers`. -/
def writeResultsCompletionOps : List SyncOp :=
  [SyncOp.atomicDec, SyncOp.mutexAcquire, SyncOp.readDoneAndCount,
   SyncOp.mutexRelease, SyncOp.maybeStopCall]

/-- The operations `handleError` performs on the shared completion state in
its terminal branch (src/pipeline.go lines 203-206): same shape as the
Result Sink's. -/
def handleErrorCompletionOps : List SyncOp :=
  [SyncOp.atomicDec, SyncOp.mutexAcquire, SyncOp.readDoneAndCount,
   SyncOp.mutexRelease, SyncOp.maybeStopCall]

/-- `true` iff every atomic decrement in the sequence happens at positive
mutex lock depth, i.e. inside the mutex-guarded critical section that also
performs the completion read -- rather than as a separate unsynchronized
operation before it. -/
def decsUnderMutex (depth : Nat) : List SyncOp → Bool
  | [] => true
  | SyncOp.atomicDec :: rest => decide (0 < depth) && decsUnderMutex depth rest
  | SyncOp.mutexAcquire :: rest => decsUnderMutex (depth + 1) rest
  | SyncOp.mutexRelease :: rest => decsUnderMutex (depth - 1) rest
  | _ :: rest => decsUnderMutex depth rest

/-- Program counter of one completion-path task (the Result Sink or the
failure handler) around its decrement: it still has to decrement, it has
decremented but not yet run the `isDone` check, or it is done. -/
inductive CheckPc
  | beforeDec
  | beforeCheck
  | finished
deriving DecidableEq, Repr

/-- Shared state for the two-decrementer race analysis: the counter and
how many times the shutdown latch was invoked.  `readURLsDone` is taken as
already true -- the race of interest is between the last two in-flight
jobs. -/
structure RaceState where
  imageCount : Nat
  stopCalls : Nat
deriving DecidableEq, Repr

/-- One atomic step of a completion-path task, exactly as the code orders
it: first the lone atomic decrement; later, separately, the mutex-guarded
read, which invokes `stopWorkers` when it observes zero.  The read takes
the counter's current shared value, not the value the task's own decrement
produced. -/
def checkTaskStep : CheckPc × RaceState → CheckPc × RaceState
  | (CheckPc.beforeDec, st) =>
      (CheckPc.beforeCheck, { st with imageCount := decUint64 st.imageCount })
  | (CheckPc.beforeCheck, st) =>
      (CheckPc.finished,
        if st.imageCount = 0 then { st with stopCalls := st.stopCalls + 1 } else st)
  | (CheckPc.finished, st) => (CheckPc.finished, st)

/-- Run an interleaving: `true` steps the first task, `false` the second. -/
def runSched : List Bool → CheckPc × CheckPc × RaceState → CheckPc × CheckPc × RaceState
  | [], cfg => cfg
  | b :: rest, (p1, p2, st) =>
    if b then
      let r := checkTaskStep (p1, st)
      runSched rest (r.1, p2, r.2)
    else
      let r := checkTaskStep (p2, st)
      runSched rest (p1, r.1, r.2)

/-- All six interleavings of two tasks of two atomic steps each (choose the
2 positions of the first task among 4 slots). -/
def lastTwoSchedules : List (List Bool) :=
  [[true, true, false, false], [true, false, true, false], [true, false, false, true],
   [false, true, true, false], [false, true, false, true], [false, false, true, true]]

/-! ## The per-job retry loop at one stage -/

/-- Outcome of one invocation of a stage function on a job. -/
inductive StageOutcome
  | ok (img2 : RqImage)
  | fail (msg : String)

/-- Observable event in the life of one job at one stage: the worker
forwarded it to the next stage's channel, a failure record reached the
failure handler, or the handler removed it terminally. -/
inductive RetryEvent
  | forwarded (j : RqJob)
  | reported (e : RqError)
  | evictedJob (j : RqJob)
deriving DecidableEq, Repr

/-- The life of one job at stage `st`, driven by `outcomes` (the stage
function's result on the attempt made with the given failure count).  Each
iteration is one worker dequeue (src/pipeline.go lines 233-281): the
worker binds `retryChn` to its own stage channel and runs the stage
function.  Success forwards the job to the next channel and the loop ends.
Failure builds `NewRqError` and hands it to the failure handler, whose
branch condition is that of `handleError` (lines 197-199): terminal
records end the loop with an eviction, retryable ones send the job back
into the same stage, i.e. the next iteration. -/
def retryLoop (st : Stage) (outcomes : Nat → StageOutcome) :
    Nat → RqJob → List RetryEvent
  | 0, _ => []
  | fuel + 1, j =>
    let jb := { j with retryChn := some st }
    match outcomes j.nFails with
    | StageOutcome.ok img2 => [RetryEvent.forwarded { jb with image := img2 }]
    | StageOutcome.fail msg =>
      let e := NewRqError jb (stageErrorType st) msg
      if e.errorType = RqErrorType.noRetry ∨ RqJobMaxFails ≤ e.job.nFails ∨
          e.job.retryChn = none then
        [RetryEvent.reported e, RetryEvent.evictedJob e.job]
      else
        RetryEvent.reported e :: retryLoop st outcomes fuel e.job

/-- Is the event a failure record reaching the failure handler? -/
def isReported : RetryEvent → Bool
  | RetryEvent.reported _ => true
  | _ => false

/-- Is the event a forward to the next stage's channel? -/
def isForwarded : RetryEvent → Bool
  | RetryEvent.forwarded _ => true
  | _ => false

/-! ## Hex field shape -/

/-- A lowercase hexadecimal digit: `0`-`9` or `a`-`f`. -/
def isLowerHexDigit (ch : Char) : Bool :=
  (48 ≤ ch.toNat && ch.toNat ≤ 57) || (97 ≤ ch.toNat && ch.toNat ≤ 102)

/-- The shape `#rrggbb`: a hash sign followed by exactly six lowercase hex
digits. -/
def isHexColorField (s : String) : Bool :=
  match s.data with
  | '#' :: rest => (rest.length == 6) && rest.all isLowerHexDigit
  | _ => false

/-! ## Concrete states used by witnesses -/

/-- A one-URL run, final state: the URL was admitted, went through all
three stages, its row was written, and the shutdown broadcast fired. -/
def cOneFinal : PipeState :=
  { source := []
    started := 1
    downloadChn := []
    summarizeChn := []
    cleanupChn := []
    saveChn := []
    errorChn := []
    saved := [{ id := 0
                image := { URL := "a", filePath := "", summary := ⟨[]⟩ }
                retryChn := some Stage.cleanup
                nFails := 0 }]
    evicted := []
    outFile := ["a\n"]
    removedFiles := ["p"]
    imageCount := 0
    readURLsDone := true
    stopped := true }

/-- A one-URL run, just after the Source Feeder admitted the URL. -/
def cSevenState : PipeState :=
  { source := []
    started := 1
    downloadChn := [{ id := 0, image := NewRqImage "a", retryChn := none, nFails := 0 }]
    summarizeChn := []
    cleanupChn := []
    saveChn := []
    errorChn := []
    saved := []
    evicted := []
    outFile := []
    removedFiles := []
    imageCount := 1
    readURLsDone := false
    stopped := false }

/-- A terminal failure record: a download job failed with a non-retryable
error. -/
def cFiveTerm : RqError :=
  { job := { id := 0, image := NewRqImage "x", retryChn := some Stage.download, nFails := 1 }
    errorType := RqErrorType.noRetry
    errorMsg := "no such host" }

/-- A retryable failure record: a summarize job on its second failure. -/
def cFiveRetry : RqError :=
  { job := { id := 1, image := NewRqImage "y", retryChn := some Stage.summarize, nFails := 2 }
    errorType := RqErrorType.summarize
    errorMsg := "bad image" }

/-- A job whose image was never downloaded. -/
def cEightJob : RqJob :=
  { id := 0, image := NewRqImage "u", retryChn := some Stage.cleanup, nFails := 0 }

/-- A config with a zero download worker count. -/
def cNineBad : InitConfig :=
  { nDownload := 0, nSummarize := 2, nCleanup := 2, hasSource := true, hasOutput := true }

/-- The default config of main.go with source and output set. -/
def cNineGood : InitConfig :=
  { nDownload := 10, nSummarize := 2, nCleanup := 2, hasSource := true, hasOutput := true }

/-- A fresh job entering a stage. -/
def cSixJob : RqJob :=
  { id := 0, image := NewRqImage "u", retryChn := none, nFails := 0 }

/-- A one-pixel red image. -/
def cTenPixels : List NRGBA := [⟨255, 0, 0, 255⟩]

/-- A job carrying the summary of the one-pixel red image. -/
def cTenJob : RqJob :=
  { id := 0
    image := { URL := "u", filePath := "", summary := getPrevalentColors cTenPixels }
    retryChn := some Stage.cleanup
    nFails := 0 }

/-! ## Arithmetic and counting lemmas -/

theorem incUint64_eq (c : Nat) (h : c + 1 < UINT64) : incUint64 c = c + 1 := by
  unfold incUint64 UINT64 at *
  omega

theorem decUint64_eq (c : Nat) (h1 : 1 ≤ c) (h2 : c < UINT64) : decUint64 c = c - 1 := by
  unfold decUint64 UINT64 at *
  omega

theorem idCount_append (i : Nat) (l1 l2 : List RqJob) :
    idCount i (l1 ++ l2) = idCount i l1 + idCount i l2 := by
  induction l1 with
  | nil => simp [idCount]
  | cons j rest ih => simp [idCount, ih]; omega

theorem idCount_le_length (i : Nat) (l : List RqJob) : idCount i l ≤ l.length := by
  induction l with
  | nil => simp [idCount]
  | cons j rest ih =>
    simp only [idCount, List.length_cons]
    split <;> omega

/-! ## The invariant holds in every reachable state -/

theorem initState_inv (urls : List String) : Inv urls (initState urls) := by
  refine ⟨?_, ?_, ?_, ?_, ?_, ?_, ?_, ?_, ?_, ?_, ?_, ?_, ?_, ?_, ?_⟩ <;>
    simp [initState, inflightJobs, chanJobs, jobsOf, idCount]

theorem step_inv {urls : List String} (hN : urls.length < UINT64)
    {s s2 : PipeState} (hs : Step s s2) (hinv : Inv urls s) : Inv urls s2 := by
  obtain ⟨hsrc, hlens, hids, hcnt, hstopFlag, hdoneSrc, hstopDec, hfailsDl, hfailsSm,
    hfailsCl, hfailsSv, hfailsErr, hfailsSaved, hfailsEvicted, houtLen⟩ := hinv
  cases hs with
  | feed u rest hchan =>
    rw [hchan] at hsrc
    simp only [List.length_cons] at hsrc
    refine ⟨?_, ?_, ?_, ?_, ?_, ?_, ?_, ?_, ?_, ?_, ?_, ?_, ?_, ?_, houtLen⟩
    · show s.started + 1 + rest.length = urls.length
      omega
    · simp only [inflightJobs, chanJobs, jobsOf, List.length_append, List.length_cons,
        List.length_nil, List.length_map] at hlens ⊢
      omega
    · intro i
      have h := hids i
      simp only [inflightJobs, chanJobs, jobsOf, idCount_append, idCount, List.map_append,
        List.map_cons, List.map_nil, add_zero, zero_add] at h ⊢
      split_ifs at h ⊢ <;> omega
    · have hx : s.imageCount + 1 < UINT64 := by
        rw [hcnt]
        omega
      show incUint64 s.imageCount = _
      rw [incUint64_eq _ hx, hcnt]
      simp only [inflightJobs, chanJobs, jobsOf, List.length_append, List.length_cons,
        List.length_nil, List.length_map]
      omega
    · intro hstop
      exfalso
      have h0 := hdoneSrc (hstopFlag hstop).1
      rw [hchan] at h0
      exact List.cons_ne_nil u rest h0
    · intro h
      exfalso
      have h0 := hdoneSrc h
      rw [hchan] at h0
      exact List.cons_ne_nil u rest h0
    · intro h
      exact hstopDec h
    · intro j2 hj2
      rcases List.mem_append.1 hj2 with h | h
      · exact hfailsDl j2 h
      · simp only [List.mem_singleton] at h
        rw [h]
        show 0 + 1 ≤ RqJobMaxFails
        decide
    · exact hfailsSm
    · exact hfailsCl
    · exact hfailsSv
    · exact hfailsErr
    · exact hfailsSaved
    · exact hfailsEvicted
  | sourceDone hs0 hrd =>
    refine ⟨hsrc, hlens, hids, hcnt, ?_, ?_, ?_, hfailsDl, hfailsSm, hfailsCl, hfailsSv,
      hfailsErr, hfailsSaved, hfailsEvicted, houtLen⟩
    · intro h
      exact ⟨rfl, (hstopFlag h).2⟩
    · intro _
      exact hs0
    · intro h
      exact hstopDec h
  | downloadOk pre post j path hchan =>
    refine ⟨hsrc, ?_, ?_, ?_, hstopFlag, hdoneSrc, hstopDec, ?_, ?_, hfailsCl, hfailsSv,
      hfailsErr, hfailsSaved, hfailsEvicted, houtLen⟩
    · simp only [inflightJobs, chanJobs, jobsOf, List.length_append, List.length_cons,
        List.length_nil, List.length_map, hchan] at hlens ⊢
      omega
    · intro i
      have h := hids i
      simp only [inflightJobs, chanJobs, jobsOf, idCount_append, idCount, List.map_append,
        List.map_cons, List.map_nil, add_zero, zero_add, hchan] at h ⊢
      split_ifs at h ⊢ <;> omega
    · simp only [inflightJobs, chanJobs, jobsOf, List.length_append, List.length_cons,
        List.length_nil, List.length_map, hchan] at hcnt ⊢
      omega
    · intro j2 hj2
      apply hfailsDl
      rw [hchan]
      rcases List.mem_append.1 hj2 with h | h
      · exact List.mem_append.2 (Or.inl h)
      · exact List.mem_append.2 (Or.inr (List.mem_cons_of_mem _ h))
    · intro j2 hj2
      rcases List.mem_append.1 hj2 with h | h
      · exact hfailsSm j2 h
      · simp only [List.mem_singleton] at h
        subst h
        exact hfailsDl j (by rw [hchan]; exact List.mem_append.2 (Or.inr (List.mem_cons_self _ _)))
  | downloadFail pre post j msg hchan =>
    refine ⟨hsrc, ?_, ?_, ?_, hstopFlag, hdoneSrc, hstopDec, ?_, hfailsSm, hfailsCl, hfailsSv,
      ?_, hfailsSaved, hfailsEvicted, houtLen⟩
    · simp only [inflightJobs, chanJobs, jobsOf, List.length_append, List.length_cons,
        List.length_nil, List.length_map, hchan] at hlens ⊢
      omega
    · intro i
      have h := hids i
      simp only [inflightJobs, chanJobs, jobsOf, NewRqError, idCount_append, idCount,
        List.map_append, List.map_cons, List.map_nil, add_zero, zero_add, hchan] at h ⊢
      split_ifs at h ⊢ <;> omega
    · simp only [inflightJobs, chanJobs, jobsOf, List.length_append, List.length_cons,
        List.length_nil, List.length_map, hchan] at hcnt ⊢
      omega
    · intro j2 hj2
      apply hfailsDl
      rw [hchan]
      rcases List.mem_append.1 hj2 with h | h
      · exact List.mem_append.2 (Or.inl h)
      · exact List.mem_append.2 (Or.inr (List.mem_cons_of_mem _ h))
    · intro e2 he2
      rcases List.mem_append.1 he2 with h | h
      · exact hfailsErr e2 h
      · simp only [List.mem_singleton] at h
        subst h
        have hj := hfailsDl j
          (by rw [hchan]; exact List.mem_append.2 (Or.inr (List.mem_cons_self _ _)))
        simpa [NewRqError] using hj
  | summarizeOk pre post j summ hchan =>
    refine ⟨hsrc, ?_, ?_, ?_, hstopFlag, hdoneSrc, hstopDec, hfailsDl, ?_, ?_, hfailsSv,
      hfailsErr, hfailsSaved, hfailsEvicted, houtLen⟩
    · simp only [inflightJobs, chanJobs, jobsOf, List.length_append, List.length_cons,
        List.length_nil, List.length_map, hchan] at hlens ⊢
      omega
    · intro i
      have h := hids i
      simp only [inflightJobs, chanJobs, jobsOf, idCount_append, idCount, List.map_append,
        List.map_cons, List.map_nil, add_zero, zero_add, hchan] at h ⊢
      split_ifs at h ⊢ <;> omega
    · simp only [inflightJobs, chanJobs, jobsOf, List.length_append, List.length_cons,
        List.length_nil, List.length_map, hchan] at hcnt ⊢
      omega
    · intro j2 hj2
      apply hfailsSm
      rw [hchan]
      rcases List.mem_append.1 hj2 with h | h
      · exact List.mem_append.2 (Or.inl h)
      · exact List.mem_append.2 (Or.inr (List.mem_cons_of_mem _ h))
    · intro j2 hj2
      rcases List.mem_append.1 hj2 with h | h
      · exact hfailsCl j2 h
      · simp only [List.mem_singleton] at h
        subst h
        exact hfailsSm j (by rw [hchan]; exact List.mem_append.2 (Or.inr (List.mem_cons_self _ _)))
  | summarizeFail pre post j msg hchan =>
    refine ⟨hsrc, ?_, ?_, ?_, hstopFlag, hdoneSrc, hstopDec, hfailsDl, ?_, hfailsCl, hfailsSv,
      ?_, hfailsSaved, hfailsEvicted, houtLen⟩
    · simp only [inflightJobs, chanJobs, jobsOf, List.length_append, List.length_cons,
        List.length_nil, List.length_map, hchan] at hlens ⊢
      omega
    · intro i
      have h := hids i
      simp only [inflightJobs, chanJobs, jobsOf, NewRqError, idCount_append, idCount,
        List.map_append, List.map_cons, List.map_nil, add_zero, zero_add, hchan] at h ⊢
      split_ifs at h ⊢ <;> omega
    · simp only [inflightJobs, chanJobs, jobsOf, List.length_append, List.length_cons,
        List.length_nil, List.length_map, hchan] at hcnt ⊢
      omega
    · intro j2 hj2
      apply hfailsSm
      rw [hchan]
      rcases List.mem_append.1 hj2 with h | h
      · exact List.mem_append.2 (Or.inl h)
      · exact List.mem_append.2 (Or.inr (List.mem_cons_of_mem _ h))
    · intro e2 he2
      rcases List.mem_append.1 he2 with h | h
      · exact hfailsErr e2 h
      · simp only [List.mem_singleton] at h
        subst h
        have hj := hfailsSm j
          (by rw [hchan]; exact List.mem_append.2 (Or.inr (List.mem_cons_self _ _)))
        simpa [NewRqError] using hj
  | cleanupStep pre post j removeOk msg hchan =>
    have hjcl : j ∈ s.cleanupChn := by
      rw [hchan]
      exact List.mem_append.2 (Or.inr (List.mem_cons_self _ _))
    by_cases hfp : j.image.filePath = ""
    · have hred : cleanupImage { j with retryChn := some Stage.cleanup } removeOk msg
          = { sent := CleanupSent.next { j with retryChn := some Stage.cleanup }
              removed := [] } := by
        simp [cleanupImage, hfp]
      simp only [hred]
      refine ⟨hsrc, ?_, ?_, ?_, hstopFlag, hdoneSrc, hstopDec, hfailsDl, hfailsSm, ?_, ?_,
        hfailsErr, hfailsSaved, hfailsEvicted, houtLen⟩
      · simp only [inflightJobs, chanJobs, jobsOf, List.length_append, List.length_cons,
          List.length_nil, List.length_map, hchan] at hlens ⊢
        omega
      · intro i
        have h := hids i
        simp only [inflightJobs, chanJobs, jobsOf, idCount_append, idCount, List.map_append,
          List.map_cons, List.map_nil, add_zero, zero_add, hchan] at h ⊢
        split_ifs at h ⊢ <;> omega
      · simp only [inflightJobs, chanJobs, jobsOf, List.length_append, List.length_cons,
          List.length_nil, List.length_map, hchan] at hcnt ⊢
        omega
      · intro j2 hj2
        apply hfailsCl
        rw [hchan]
        rcases List.mem_append.1 hj2 with h | h
        · exact List.mem_append.2 (Or.inl h)
        · exact List.mem_append.2 (Or.inr (List.mem_cons_of_mem _ h))
      · intro j2 hj2
        rcases List.mem_append.1 hj2 with h | h
        · exact hfailsSv j2 h
        · simp only [List.mem_singleton] at h
          subst h
          exact hfailsCl j hjcl
    · cases removeOk with
      | true =>
        have hred : cleanupImage { j with retryChn := some Stage.cleanup } true msg
            = { sent := CleanupSent.next
                  { j with retryChn := some Stage.cleanup
                           image := { j.image with filePath := "" } }
                removed := [j.image.filePath] } := by
          simp [cleanupImage, hfp]
        simp only [hred]
        refine ⟨hsrc, ?_, ?_, ?_, hstopFlag, hdoneSrc, hstopDec, hfailsDl, hfailsSm, ?_, ?_,
          hfailsErr, hfailsSaved, hfailsEvicted, houtLen⟩
        · simp only [inflightJobs, chanJobs, jobsOf, List.length_append, List.length_cons,
            List.length_nil, List.length_map, hchan] at hlens ⊢
          omega
        · intro i
          have h := hids i
          simp only [inflightJobs, chanJobs, jobsOf, idCount_append, idCount, List.map_append,
            List.map_cons, List.map_nil, add_zero, zero_add, hchan] at h ⊢
          split_ifs at h ⊢ <;> omega
        · simp only [inflightJobs, chanJobs, jobsOf, List.length_append, List.length_cons,
            List.length_nil, List.length_map, hchan] at hcnt ⊢
          omega
        · intro j2 hj2
          apply hfailsCl
          rw [hchan]
          rcases List.mem_append.1 hj2 with h | h
          · exact List.mem_append.2 (Or.inl h)
          · exact List.mem_append.2 (Or.inr (List.mem_cons_of_mem _ h))
        · intro j2 hj2
          rcases List.mem_append.1 hj2 with h | h
          · exact hfailsSv j2 h
          · simp only [List.mem_singleton] at h
            subst h
            exact hfailsCl j hjcl
      | false =>
        have hred : cleanupImage { j with retryChn := some Stage.cleanup } false msg
            = { sent := CleanupSent.failure
                  (NewRqError { j with retryChn := some Stage.cleanup } RqErrorType.cleanup msg)
                removed := [] } := by
          simp [cleanupImage, hfp]
        simp only [hred]
        refine ⟨hsrc, ?_, ?_, ?_, hstopFlag, hdoneSrc, hstopDec, hfailsDl, hfailsSm, ?_,
          hfailsSv, ?_, hfailsSaved, hfailsEvicted, houtLen⟩
        · simp only [inflightJobs, chanJobs, jobsOf, List.length_append, List.length_cons,
            List.length_nil, List.length_map, hchan] at hlens ⊢
          omega
        · intro i
          have h := hids i
          simp only [inflightJobs, chanJobs, jobsOf, NewRqError, idCount_append, idCount,
            List.map_append, List.map_cons, List.map_nil, add_zero, zero_add, hchan] at h ⊢
          split_ifs at h ⊢ <;> omega
        · simp only [inflightJobs, chanJobs, jobsOf, List.length_append, List.length_cons,
            List.length_nil, List.length_map, hchan] at hcnt ⊢
          omega
        · intro j2 hj2
          apply hfailsCl
          rw [hchan]
          rcases List.mem_append.1 hj2 with h | h
          · exact List.mem_append.2 (Or.inl h)
          · exact List.mem_append.2 (Or.inr (List.mem_cons_of_mem _ h))
        · intro e2 he2
          rcases List.mem_append.1 he2 with h | h
          · exact hfailsErr e2 h
          · simp only [List.mem_singleton] at h
            subst h
            have hj := hfailsCl j hjcl
            simpa [NewRqError] using hj
  | writeOk pre post j hchan =>
    have hblt : s.imageCount < UINT64 := by
      rw [hcnt]
      omega
    have h1le : 1 ≤ s.imageCount := by
      rw [hcnt]
      simp only [inflightJobs, chanJobs, jobsOf, List.length_append, List.length_cons,
        List.length_nil, List.length_map, hchan]
      omega
    refine ⟨hsrc, ?_, ?_, ?_, ?_, hdoneSrc, ?_, hfailsDl, hfailsSm, hfailsCl, ?_,
      hfailsErr, ?_, hfailsEvicted, ?_⟩
    · simp only [inflightJobs, chanJobs, jobsOf, List.length_append, List.length_cons,
        List.length_nil, List.length_map, hchan] at hlens ⊢
      omega
    · intro i
      have h := hids i
      simp only [inflightJobs, chanJobs, jobsOf, idCount_append, idCount, List.map_append,
        List.map_cons, List.map_nil, add_zero, zero_add, hchan] at h ⊢
      split_ifs at h ⊢ <;> omega
    · show decUint64 s.imageCount = _
      rw [decUint64_eq _ h1le hblt, hcnt]
      simp only [inflightJobs, chanJobs, jobsOf, List.length_append, List.length_cons,
        List.length_nil, List.length_map, hchan]
      omega
    · intro hstop
      exfalso
      have h0 := (hstopFlag hstop).2
      omega
    · intro _
      simp only [List.length_append, List.length_cons, List.length_nil]
      omega
    · intro j2 hj2
      apply hfailsSv
      rw [hchan]
      rcases List.mem_append.1 hj2 with h | h
      · exact List.mem_append.2 (Or.inl h)
      · exact List.mem_append.2 (Or.inr (List.mem_cons_of_mem _ h))
    · intro j2 hj2
      rcases List.mem_append.1 hj2 with h | h
      · exact hfailsSaved j2 h
      · simp only [List.mem_singleton] at h
        have hjx := hfailsSv j
          (by rw [hchan]; exact List.mem_append.2 (Or.inr (List.mem_cons_self _ _)))
        rw [h]
        omega
    · simp only [List.length_append, List.length_cons, List.length_nil] at houtLen ⊢
      omega
  | writeFail pre post j msg hchan =>
    refine ⟨hsrc, ?_, ?_, ?_, hstopFlag, hdoneSrc, hstopDec, hfailsDl, hfailsSm, hfailsCl,
      ?_, ?_, hfailsSaved, hfailsEvicted, houtLen⟩
    · simp only [inflightJobs, chanJobs, jobsOf, List.length_append, List.length_cons,
        List.length_nil, List.length_map, hchan] at hlens ⊢
      omega
    · intro i
      have h := hids i
      simp only [inflightJobs, chanJobs, jobsOf, NewRqError, idCount_append, idCount,
        List.map_append, List.map_cons, List.map_nil, add_zero, zero_add, hchan] at h ⊢
      split_ifs at h ⊢ <;> omega
    · simp only [inflightJobs, chanJobs, jobsOf, List.length_append, List.length_cons,
        List.length_nil, List.length_map, hchan] at hcnt ⊢
      omega
    · intro j2 hj2
      apply hfailsSv
      rw [hchan]
      rcases List.mem_append.1 hj2 with h | h
      · exact List.mem_append.2 (Or.inl h)
      · exact List.mem_append.2 (Or.inr (List.mem_cons_of_mem _ h))
    · intro e2 he2
      rcases List.mem_append.1 he2 with h | h
      · exact hfailsErr e2 h
      · simp only [List.mem_singleton] at h
        subst h
        have hj := hfailsSv j
          (by rw [hchan]; exact List.mem_append.2 (Or.inr (List.mem_cons_self _ _)))
        simpa [NewRqError] using hj
  | handleOne pre post e hchan =>
    have hmem : e ∈ s.errorChn := by
      rw [hchan]
      exact List.mem_append.2 (Or.inr (List.mem_cons_self _ _))
    have hjb := hfailsErr e hmem
    have hblt : s.imageCount < UINT64 := by
      rw [hcnt]
      omega
    have h1le : 1 ≤ s.imageCount := by
      rw [hcnt]
      simp only [inflightJobs, chanJobs, jobsOf, List.length_append, List.length_cons,
        List.length_nil, List.length_map, hchan]
      omega
    rcases hre : e.job.retryChn with _ | st
    · simp only [handleError, hre]
      refine ⟨hsrc, ?_, ?_, ?_, ?_, hdoneSrc, ?_, hfailsDl, hfailsSm, hfailsCl, hfailsSv,
        ?_, hfailsSaved, ?_, houtLen⟩
      · simp only [inflightJobs, chanJobs, jobsOf, List.length_append, List.length_cons,
          List.length_nil, List.length_map, hchan] at hlens ⊢
        omega
      · intro i
        have h := hids i
        simp only [inflightJobs, chanJobs, jobsOf, idCount_append, idCount, List.map_append,
          List.map_cons, List.map_nil, add_zero, zero_add, hchan] at h ⊢
        split_ifs at h ⊢ <;> omega
      · show decUint64 s.imageCount = _
        rw [decUint64_eq _ h1le hblt, hcnt]
        simp only [inflightJobs, chanJobs, jobsOf, List.length_append, List.length_cons,
          List.length_nil, List.length_map, hchan]
        omega
      · intro hstop
        exfalso
        have h0 := (hstopFlag hstop).2
        omega
      · intro _
        simp only [List.length_append, List.length_cons, List.length_nil]
        omega
      · intro e2 he2
        apply hfailsErr
        rw [hchan]
        rcases List.mem_append.1 he2 with h | h
        · exact List.mem_append.2 (Or.inl h)
        · exact List.mem_append.2 (Or.inr (List.mem_cons_of_mem _ h))
      · intro j2 hj2
        rcases List.mem_append.1 hj2 with h | h
        · exact hfailsEvicted j2 h
        · simp only [List.mem_singleton] at h
          subst h
          exact hjb
    · by_cases hterm : e.errorType = RqErrorType.noRetry ∨ RqJobMaxFails ≤ e.job.nFails
      · simp only [handleError, hre, if_pos hterm]
        refine ⟨hsrc, ?_, ?_, ?_, ?_, hdoneSrc, ?_, hfailsDl, hfailsSm, hfailsCl, hfailsSv,
          ?_, hfailsSaved, ?_, houtLen⟩
        · simp only [inflightJobs, chanJobs, jobsOf, List.length_append, List.length_cons,
            List.length_nil, List.length_map, hchan] at hlens ⊢
          omega
        · intro i
          have h := hids i
          simp only [inflightJobs, chanJobs, jobsOf, idCount_append, idCount, List.map_append,
            List.map_cons, List.map_nil, add_zero, zero_add, hchan] at h ⊢
          split_ifs at h ⊢ <;> omega
        · show decUint64 s.imageCount = _
          rw [decUint64_eq _ h1le hblt, hcnt]
          simp only [inflightJobs, chanJobs, jobsOf, List.length_append, List.length_cons,
            List.length_nil, List.length_map, hchan]
          omega
        · intro hstop
          exfalso
          have h0 := (hstopFlag hstop).2
          omega
        · intro _
          simp only [List.length_append, List.length_cons, List.length_nil]
          omega
        · intro e2 he2
          apply hfailsErr
          rw [hchan]
          rcases List.mem_append.1 he2 with h | h
          · exact List.mem_append.2 (Or.inl h)
          · exact List.mem_append.2 (Or.inr (List.mem_cons_of_mem _ h))
        · intro j2 hj2
          rcases List.mem_append.1 hj2 with h | h
          · exact hfailsEvicted j2 h
          · simp only [List.mem_singleton] at h
            subst h
            exact hjb
      · have hlt : e.job.nFails < RqJobMaxFails := by
          rcases Nat.lt_or_ge e.job.nFails RqJobMaxFails with h | h
          · exact h
          · exact absurd (Or.inr h) hterm
        simp only [handleError, hre, if_neg hterm]
        cases st with
        | download =>
          simp only [pushChn]
          refine ⟨hsrc, ?_, ?_, ?_, hstopFlag, hdoneSrc, hstopDec, ?_, hfailsSm, hfailsCl,
            hfailsSv, ?_, hfailsSaved, hfailsEvicted, houtLen⟩
          · simp only [inflightJobs, chanJobs, jobsOf, List.length_append, List.length_cons,
              List.length_nil, List.length_map, hchan] at hlens ⊢
            omega
          · intro i
            have h := hids i
            simp only [inflightJobs, chanJobs, jobsOf, idCount_append, idCount,
              List.map_append, List.map_cons, List.map_nil, add_zero, zero_add, hchan] at h ⊢
            split_ifs at h ⊢ <;> omega
          · simp only [inflightJobs, chanJobs, jobsOf, List.length_append, List.length_cons,
              List.length_nil, List.length_map, hchan] at hcnt ⊢
            omega
          · intro j2 hj2
            rcases List.mem_append.1 hj2 with h | h
            · exact hfailsDl j2 h
            · simp only [List.mem_singleton] at h
              subst h
              omega
          · intro e2 he2
            apply hfailsErr
            rw [hchan]
            rcases List.mem_append.1 he2 with h | h
            · exact List.mem_append.2 (Or.inl h)
            · exact List.mem_append.2 (Or.inr (List.mem_cons_of_mem _ h))
        | summarize =>
          simp only [pushChn]
          refine ⟨hsrc, ?_, ?_, ?_, hstopFlag, hdoneSrc, hstopDec, hfailsDl, ?_, hfailsCl,
            hfailsSv, ?_, hfailsSaved, hfailsEvicted, houtLen⟩
          · simp only [inflightJobs, chanJobs, jobsOf, List.length_append, List.length_cons,
              List.length_nil, List.length_map, hchan] at hlens ⊢
            omega
          · intro i
            have h := hids i
            simp only [inflightJobs, chanJobs, jobsOf, idCount_append, idCount,
              List.map_append, List.map_cons, List.map_nil, add_zero, zero_add, hchan] at h ⊢
            split_ifs at h ⊢ <;> omega
          · simp only [inflightJobs, chanJobs, jobsOf, List.length_append, List.length_cons,
              List.length_nil, List.length_map, hchan] at hcnt ⊢
            omega
          · intro j2 hj2
            rcases List.mem_append.1 hj2 with h | h
            · exact hfailsSm j2 h
            · simp only [List.mem_singleton] at h
              subst h
              omega
          · intro e2 he2
            apply hfailsErr
            rw [hchan]
            rcases List.mem_append.1 he2 with h | h
            · exact List.mem_append.2 (Or.inl h)
            · exact List.mem_append.2 (Or.inr (List.mem_cons_of_mem _ h))
        | cleanup =>
          simp only [pushChn]
          refine ⟨hsrc, ?_, ?_, ?_, hstopFlag, hdoneSrc, hstopDec, hfailsDl, hfailsSm, ?_,
            hfailsSv, ?_, hfailsSaved, hfailsEvicted, houtLen⟩
          · simp only [inflightJobs, chanJobs, jobsOf, List.length_append, List.length_cons,
              List.length_nil, List.length_map, hchan] at hlens ⊢
            omega
          · intro i
            have h := hids i
            simp only [inflightJobs, chanJobs, jobsOf, idCount_append, idCount,
              List.map_append, List.map_cons, List.map_nil, add_zero, zero_add, hchan] at h ⊢
            split_ifs at h ⊢ <;> omega
          · simp only [inflightJobs, chanJobs, jobsOf, List.length_append, List.length_cons,
              List.length_nil, List.length_map, hchan] at hcnt ⊢
            omega
          · intro j2 hj2
            rcases List.mem_append.1 hj2 with h | h
            · exact hfailsCl j2 h
            · simp only [List.mem_singleton] at h
              subst h
              omega
          · intro e2 he2
            apply hfailsErr
            rw [hchan]
            rcases List.mem_append.1 he2 with h | h
            · exact List.mem_append.2 (Or.inl h)
            · exact List.mem_append.2 (Or.inr (List.mem_cons_of_mem _ h))
  | triggerStop h1 h2 h3 h4 =>
    refine ⟨hsrc, hlens, hids, hcnt, ?_, hdoneSrc, ?_, hfailsDl, hfailsSm, hfailsCl,
      hfailsSv, hfailsErr, hfailsSaved, hfailsEvicted, houtLen⟩
    · intro _
      exact ⟨h1, h2⟩
    · intro _
      exact h4

/-- Every reachable state of a run on fewer than 2^64 source lines
satisfies the invariant. -/
theorem reachable_inv {urls : List String} (hN : urls.length < UINT64)
    {s : PipeState} (hr : Reachable urls s) : Inv urls s := by
  induction hr with
  | init => exact initState_inv urls
  | step _ hs ih => exact step_inv hN hs ih


/-! ## Supporting lemmas for the serialization claims -/

theorem updateMostFrequentColors_length (m : List NRGBA) (c : NRGBA)
    (counts : NRGBA → Nat) :
    (updateMostFrequentColors m c counts).length = m.length := by
  unfold updateMostFrequentColors
  split_ifs <;> simp [List.length_set]

theorem getPrevalentColorsLoop_length (pixels : List NRGBA) :
    ∀ (counts : NRGBA → Nat) (m : List NRGBA),
      (getPrevalentColorsLoop pixels counts m).length = m.length := by
  induction pixels with
  | nil =>
    intro counts m
    rfl
  | cons p rest ih =>
    intro counts m
    simp only [getPrevalentColorsLoop]
    rw [ih, updateMostFrequentColors_length]

/-- The Go slice `mostColors` is created with three entries and only ever
updated in place, so the summary always has exactly three colors. -/
theorem getPrevalentColors_length (pixels : List NRGBA) :
    (getPrevalentColors pixels).colors.length = 3 := by
  simp [getPrevalentColors, getPrevalentColorsLoop_length]

theorem hexDigit_isLower : ∀ n, n < 16 → isLowerHexDigit (hexDigit n) = true := by
  decide

theorem lowerHex_ne_newline (ch : Char) (h : isLowerHexDigit ch = true) :
    ch ≠ Char.ofNat 10 := by
  intro heq
  subst heq
  exact absurd h (by decide)

theorem hexByteChars_length (v : Fin 256) : (hexByteChars v).length = 2 := rfl

theorem hexByteChars_lower (v : Fin 256) :
    (hexByteChars v).all isLowerHexDigit = true := by
  have hv := v.isLt
  have h1 : v.val / 16 < 16 := by omega
  have h2 : v.val % 16 < 16 := by omega
  simp [hexByteChars, hexDigit_isLower _ h1, hexDigit_isLower _ h2]

theorem hexify_isHexColorField (c : NRGBA) : isHexColorField (hexify c) = true := by
  have hr := hexByteChars_lower c.r
  have hg := hexByteChars_lower c.g
  have hb := hexByteChars_lower c.b
  show ((((hexByteChars c.r ++ hexByteChars c.g ++ hexByteChars c.b).length == 6)
      && (hexByteChars c.r ++ hexByteChars c.g ++ hexByteChars c.b).all isLowerHexDigit)
      = true)
  simp [List.all_append, hexByteChars_length, hr, hg, hb]

theorem hexify_mem_ne_newline (c : NRGBA) (ch : Char)
    (h : ch ∈ (hexify c).data) : ch ≠ '\n' := by
  have h2 : ch ∈ '#' ::
      (hexByteChars c.r ++ hexByteChars c.g ++ hexByteChars c.b) := h
  rcases List.mem_cons.1 h2 with heq | h3
  · subst heq
    decide
  · have hhex : isLowerHexDigit ch = true := by
      rcases List.mem_append.1 h3 with h4 | h5
      · rcases List.mem_append.1 h4 with h6 | h6
        · exact List.all_eq_true.1 (hexByteChars_lower c.r) ch h6
        · exact List.all_eq_true.1 (hexByteChars_lower c.g) ch h6
      · exact List.all_eq_true.1 (hexByteChars_lower c.b) ch h5
    exact lowerHex_ne_newline ch hhex

/-- Once the latch has fired, `stopWorkers` is a no-op. -/
theorem stopWorkers_noop (a b c : Nat) (st : StopState) (h : st.stopOnceDone = true) :
    stopWorkers a b c st = st := by
  simp [stopWorkers, h]

/-! ## Reachability of the concrete witness states -/

theorem cSevenState_reachable : Reachable ["a"] cSevenState :=
  Reachable.step Reachable.init (Step.feed _ "a" [] rfl)

theorem cOneFinal_reachable : Reachable ["a"] cOneFinal := by
  have h0 : Reachable ["a"] (initState ["a"]) := Reachable.init
  have h1 := Reachable.step h0 (Step.feed _ "a" [] rfl)
  have h2 := Reachable.step h1 (Step.sourceDone _ rfl rfl)
  have h3 := Reachable.step h2 (Step.downloadOk _ [] [] _ "p" rfl)
  have h4 := Reachable.step h3 (Step.summarizeOk _ [] [] _ ⟨[]⟩ rfl)
  have h5 := Reachable.step h4 (Step.cleanupStep _ [] [] _ true "m" rfl)
  have h6 := Reachable.step h5 (Step.writeOk _ [] [] _ rfl)
  exact Reachable.step h6 (Step.triggerStop _ rfl rfl rfl (by decide))

/-! ## The claims -/

/-- C1: in every reachable state the in-flight counter equals admitted
minus saved-plus-evicted, and once the pipeline has stopped, the counter
is zero, nothing is in flight, and every admitted job is accounted for
exactly once: its admission id occurs exactly once across the Result
Sink's written rows and the failure handler's terminal evictions -- never
both, never neither. -/
theorem pipeline_accounting (urls : List String) (hN : urls.length < UINT64)
    (s : PipeState) (hr : Reachable urls s) :
    s.imageCount + (s.saved.length + s.evicted.length) = s.started ∧
    (s.stopped = true →
      s.imageCount = 0 ∧ inflightJobs s = [] ∧
      ∀ i : Nat, i < s.started →
        idCount i s.saved + idCount i s.evicted = 1) := by
  obtain ⟨hsrc, hlens, hids, hcnt, hstopFlag, hdoneSrc, hstopDec, _, _, _, _, _, _, _, _⟩ :=
    reachable_inv hN hr
  constructor
  · rw [hcnt]
    omega
  · intro hstop
    have h0 := (hstopFlag hstop).2
    have hnil : inflightJobs s = [] := by
      rw [hcnt] at h0
      exact List.length_eq_zero.mp h0
    refine ⟨h0, hnil, ?_⟩
    intro i hi
    have h := hids i
    rw [hnil] at h
    simp only [idCount] at h
    rw [if_pos hi] at h
    omega

/-- C1 witness: the accounting theorem applied to the concrete one-URL run
that reaches shutdown. -/
theorem pipeline_accounting_witness :
    (["a"] : List String).length < UINT64 ∧
    (cOneFinal.imageCount + (cOneFinal.saved.length + cOneFinal.evicted.length)
        = cOneFinal.started ∧
      (cOneFinal.stopped = true →
        cOneFinal.imageCount = 0 ∧ inflightJobs cOneFinal = [] ∧
        ∀ i : Nat, i < cOneFinal.started →
          idCount i cOneFinal.saved + idCount i cOneFinal.evicted = 1)) :=
  ⟨by decide, pipeline_accounting ["a"] (by decide) cOneFinal cOneFinal_reachable⟩

/-- C2: with an empty source the pipeline never shuts down.  No decrement
of the in-flight counter ever happens, so `isDone` is never consulted and
`stopWorkers` is never called: in every reachable state the stopped flag
is still false (while the output is indeed empty).  The spec's claim of an
immediate shutdown with empty output fails on the code: `writeResults`
blocks forever on the save channel and `Run` never returns. -/
theorem emptySource_never_stops (s : PipeState) (hr : Reachable [] s) :
    s.stopped = false ∧ s.outFile = [] ∧ s.saved = [] ∧ s.evicted = [] := by
  obtain ⟨hsrc, hlens, hids, hcnt, hstopFlag, hdoneSrc, hstopDec, _, _, _, _, _, _, _,
    houtLen⟩ := reachable_inv (by decide) hr
  simp only [List.length_nil] at hsrc
  have h1 : s.saved.length = 0 := by omega
  have h2 : s.evicted.length = 0 := by omega
  have h3 : s.outFile.length = 0 := by omega
  have hstop : s.stopped = false := by
    cases hb : s.stopped
    · rfl
    · exact absurd (show s.saved.length + s.evicted.length = 0 by omega) (hstopDec hb)
  exact ⟨hstop, List.length_eq_zero.mp h3, List.length_eq_zero.mp h1,
    List.length_eq_zero.mp h2⟩

/-- C2 witness: the theorem applied to the initial state of the empty-source
run. -/
theorem emptySource_never_stops_witness :
    (initState []).stopped = false ∧ (initState []).outFile = [] ∧
    (initState []).saved = [] ∧ (initState []).evicted = [] :=
  emptySource_never_stops (initState []) Reachable.init

/-- C3 counterexample: in both decrement sites (`writeResults` after a
successful write and `handleError`'s terminal branch) the
`atomic.AddUint64` decrement happens at mutex depth zero -- outside the
mutex-guarded critical section in which `isDone` reads `readURLsDone` and
`imageCount`.  The decrement and the completion check are two separate
operations, not one critical section under the mutex. -/
theorem decrement_not_under_mutex :
    decsUnderMutex 0 writeResultsCompletionOps = false ∧
    decsUnderMutex 0 handleErrorCompletionOps = false := by
  decide

/-- C3 amended: the decrement is a lock-free atomic operation and only the
subsequent read of `sourceExhausted` and `inFlightCount` is under the
mutex; nevertheless two components decrementing concurrently cannot both
miss the zero count, because each completion check re-reads the shared
counter after its decrement: in every interleaving of the two
decrement-then-check sequences, starting from two in-flight jobs, both
tasks finish and at least one of them observes zero and invokes the
shutdown latch. -/
theorem completion_check_not_missed (sched : List Bool)
    (hs : sched ∈ lastTwoSchedules) :
    (runSched sched (CheckPc.beforeDec, CheckPc.beforeDec, ⟨2, 0⟩)).1
        = CheckPc.finished ∧
    (runSched sched (CheckPc.beforeDec, CheckPc.beforeDec, ⟨2, 0⟩)).2.1
        = CheckPc.finished ∧
    1 ≤ (runSched sched (CheckPc.beforeDec, CheckPc.beforeDec, ⟨2, 0⟩)).2.2.stopCalls := by
  fin_cases hs <;> decide

/-- C3 amended witness: one concrete interleaving, alternating the two
tasks. -/
theorem completion_check_not_missed_witness :
    [true, false, true, false] ∈ lastTwoSchedules ∧
    ((runSched [true, false, true, false]
        (CheckPc.beforeDec, CheckPc.beforeDec, ⟨2, 0⟩)).1 = CheckPc.finished ∧
     (runSched [true, false, true, false]
        (CheckPc.beforeDec, CheckPc.beforeDec, ⟨2, 0⟩)).2.1 = CheckPc.finished ∧
     1 ≤ (runSched [true, false, true, false]
        (CheckPc.beforeDec, CheckPc.beforeDec, ⟨2, 0⟩)).2.2.stopCalls) :=
  ⟨by decide, completion_check_not_missed [true, false, true, false] (by decide)⟩

/-- C4: across a run, no matter how many times `stopWorkers` is invoked
(at least once), the total number of shutdown tokens delivered on
`doneChn` is exactly `nDownload + nSummarize + nCleanup + 1` -- one per
stage worker plus one for the failure handler -- because the `sync.Once`
latch makes every invocation after the first a no-op. -/
theorem stopWorkers_exactly_once (nDownload nSummarize nCleanup k : Nat)
    (hk : 1 ≤ k) :
    (callStopWorkers nDownload nSummarize nCleanup k).doneTokens
      = nDownload + nSummarize + nCleanup + 1 ∧
    (callStopWorkers nDownload nSummarize nCleanup k).stopOnceDone = true := by
  obtain ⟨n, rfl⟩ : ∃ n, k = n + 1 := ⟨k - 1, by omega⟩
  clear hk
  induction n with
  | zero =>
    simp [callStopWorkers, stopWorkers]
  | succ m ih =>
    show (stopWorkers nDownload nSummarize nCleanup
        (callStopWorkers nDownload nSummarize nCleanup (m + 1))).doneTokens
          = nDownload + nSummarize + nCleanup + 1 ∧
      (stopWorkers nDownload nSummarize nCleanup
        (callStopWorkers nDownload nSummarize nCleanup (m + 1))).stopOnceDone = true
    rw [stopWorkers_noop _ _ _ _ ih.2]
    exact ih

/-- C4 witness: five invocations with main.go's default worker counts
(10, 2, 2) deliver exactly 15 tokens. -/
theorem stopWorkers_exactly_once_witness :
    1 ≤ 5 ∧
    (callStopWorkers 10 2 2 5).doneTokens = 10 + 2 + 2 + 1 ∧
    (callStopWorkers 10 2 2 5).stopOnceDone = true :=
  ⟨by decide, (stopWorkers_exactly_once 10 2 2 5 (by decide)).1,
   (stopWorkers_exactly_once 10 2 2 5 (by decide)).2⟩

/-- C5: the failure-handler policy.  A consumed record whose kind is
non-retryable, or whose job has reached `RqJobMaxFails` failures, or whose
job carries no retry channel, is terminal: the job's file path is passed
to `os.Remove` (best effort), the job is evicted and the in-flight counter
is decremented.  Any other record's job is sent back to the channel of
exactly the stage recorded in `retryChn` -- the stage at which it failed,
never the pipeline's start -- and `NewRqError` already gave that job a
failure count one higher than at failure time, while leaving its retry
target unchanged. -/
theorem handleError_policy (s : PipeState) (e : RqError) :
    ((e.errorType = RqErrorType.noRetry ∨ RqJobMaxFails ≤ e.job.nFails ∨
        e.job.retryChn = none) →
      handleError s e =
        { s with removedFiles := s.removedFiles ++ [e.job.image.filePath]
                 evicted := s.evicted ++ [e.job]
                 imageCount := decUint64 s.imageCount }) ∧
    (∀ st : Stage, e.job.retryChn = some st →
      e.errorType ≠ RqErrorType.noRetry → e.job.nFails < RqJobMaxFails →
      handleError s e = pushChn st e.job s) ∧
    (∀ (j : RqJob) (t : RqErrorType) (m : String),
      (NewRqError j t m).job.nFails = j.nFails + 1 ∧
      (NewRqError j t m).job.retryChn = j.retryChn) := by
  refine ⟨?_, ?_, ?_⟩
  · intro hterm
    rcases hre : e.job.retryChn with _ | st
    · simp [handleError, hre]
    · rcases hterm with h | h | h
      · simp [handleError, hre, h]
      · simp [handleError, hre, h]
      · rw [hre] at h
        cases h
  · intro st hre hne hlt
    have hcond : ¬(e.errorType = RqErrorType.noRetry ∨ RqJobMaxFails ≤ e.job.nFails) := by
      rintro (h | h)
      · exact hne h
      · omega
    simp [handleError, hre, hcond]
  · intro j t m
    exact ⟨rfl, rfl⟩

/-- C5 witness: a non-retryable download record is evicted; a summarize
record on its second failure is sent back to the summarize channel. -/
theorem handleError_policy_witness :
    (cFiveTerm.errorType = RqErrorType.noRetry ∨
      RqJobMaxFails ≤ cFiveTerm.job.nFails ∨ cFiveTerm.job.retryChn = none) ∧
    handleError (initState []) cFiveTerm =
      { initState [] with
          removedFiles := (initState []).removedFiles ++ [cFiveTerm.job.image.filePath]
          evicted := (initState []).evicted ++ [cFiveTerm.job]
          imageCount := decUint64 (initState []).imageCount } ∧
    cFiveRetry.job.retryChn = some Stage.summarize ∧
    handleError (initState []) cFiveRetry = pushChn Stage.summarize cFiveRetry.job (initState []) :=
  ⟨Or.inl rfl,
   (handleError_policy (initState []) cFiveTerm).1 (Or.inl rfl),
   rfl,
   (handleError_policy (initState []) cFiveRetry).2.1 Stage.summarize rfl
     (by decide) (by decide)⟩

/-- C6: a stage function that fails on every attempt makes its job's
failure records reach the failure handler exactly `RqJobMaxFails = 3`
times; the last record is terminal and the job is evicted, and the job is
never forwarded to any downstream stage channel. -/
theorem alwaysFail_retry_bound (st : Stage) (msg : String) (j : RqJob) (fuel : Nat)
    (h0 : j.nFails = 0) (hf : 3 ≤ fuel) :
    (retryLoop st (fun _ => StageOutcome.fail msg) fuel j).countP
        (fun ev => isReported ev) = RqJobMaxFails ∧
    (retryLoop st (fun _ => StageOutcome.fail msg) fuel j).getLast?
      = some (RetryEvent.evictedJob
          { j with retryChn := some st, nFails := RqJobMaxFails }) ∧
    (retryLoop st (fun _ => StageOutcome.fail msg) fuel j).countP
        (fun ev => isForwarded ev) = 0 := by
  obtain ⟨n, rfl⟩ : ∃ n, fuel = n + 3 := ⟨fuel - 3, by omega⟩
  obtain ⟨jid, jimg, jret, jn⟩ := j
  have h0x : jn = 0 := h0
  subst h0x
  cases st <;> exact ⟨rfl, rfl, rfl⟩

/-- C6 witness: the theorem at a fresh job of the download stage with fuel
3. -/
theorem alwaysFail_retry_bound_witness :
    cSixJob.nFails = 0 ∧ (3 : Nat) ≤ 3 ∧
    ((retryLoop Stage.download (fun _ => StageOutcome.fail "m") 3 cSixJob).countP
        (fun ev => isReported ev) = RqJobMaxFails ∧
      (retryLoop Stage.download (fun _ => StageOutcome.fail "m") 3 cSixJob).getLast?
        = some (RetryEvent.evictedJob
            { cSixJob with retryChn := some Stage.download, nFails := RqJobMaxFails }) ∧
      (retryLoop Stage.download (fun _ => StageOutcome.fail "m") 3 cSixJob).countP
          (fun ev => isForwarded ev) = 0) :=
  ⟨rfl, by decide, alwaysFail_retry_bound Stage.download "m" cSixJob 3 rfl (by decide)⟩

/-- C7: in every reachable state, every job anywhere in the pipeline
(in a stage channel, inside a pending failure record, saved, or evicted)
has a failure count between 0 and `RqJobMaxFails = 3`, and each recorded
failure (`NewRqError`) increments the count exactly once. -/
theorem nFails_bounded (urls : List String) (hN : urls.length < UINT64)
    (s : PipeState) (hr : Reachable urls s) :
    (∀ j : RqJob, j ∈ inflightJobs s ∨ j ∈ s.saved ∨ j ∈ s.evicted →
      0 ≤ j.nFails ∧ j.nFails ≤ RqJobMaxFails) ∧
    (∀ (j : RqJob) (t : RqErrorType) (m : String),
      (NewRqError j t m).job.nFails = j.nFails + 1) := by
  obtain ⟨_, _, _, _, _, _, _, hfailsDl, hfailsSm, hfailsCl, hfailsSv, hfailsErr,
    hfailsSaved, hfailsEvicted, _⟩ := reachable_inv hN hr
  constructor
  · intro j hj
    refine ⟨Nat.zero_le _, ?_⟩
    rcases hj with h | h | h
    · simp only [inflightJobs, List.mem_append] at h
      rcases h with h | h
      · have h4 : j ∈ s.downloadChn ∨ j ∈ s.summarizeChn ∨ j ∈ s.cleanupChn ∨
            j ∈ s.saveChn := by
          simpa [chanJobs, List.mem_append, or_assoc] using h
        rcases h4 with h | h | h | h
        · have := hfailsDl j h
          omega
        · have := hfailsSm j h
          omega
        · have := hfailsCl j h
          omega
        · have := hfailsSv j h
          omega
      · simp only [jobsOf, List.mem_map] at h
        obtain ⟨e, he, rfl⟩ := h
        exact hfailsErr e he
    · exact hfailsSaved j h
    · exact hfailsEvicted j h
  · intro j t m
    rfl

/-- C7 witness: the theorem at the state just after a one-URL source
admitted its job. -/
theorem nFails_bounded_witness :
    (["a"] : List String).length < UINT64 ∧
    ((∀ j : RqJob, j ∈ inflightJobs cSevenState ∨ j ∈ cSevenState.saved ∨
        j ∈ cSevenState.evicted →
      0 ≤ j.nFails ∧ j.nFails ≤ RqJobMaxFails) ∧
    (∀ (j : RqJob) (t : RqErrorType) (m : String),
      (NewRqError j t m).job.nFails = j.nFails + 1)) :=
  ⟨by decide, nFails_bounded ["a"] (by decide) cSevenState cSevenState_reachable⟩

/-- C8: `cleanupImage` on a job whose resource was never created (empty
`filePath`) is a no-op success: the job itself is forwarded to the next
channel, no failure record is emitted, and no file is removed. -/
theorem cleanupImage_noResource (job : RqJob) (removeOk : Bool) (msg : String)
    (h : job.image.filePath = "") :
    cleanupImage job removeOk msg = { sent := CleanupSent.next job, removed := [] } := by
  simp [cleanupImage, h]

/-- C8 witness: a job fresh from `NewRqImage`, even with a failing
`os.Remove`. -/
theorem cleanupImage_noResource_witness :
    cEightJob.image.filePath = "" ∧
    cleanupImage cEightJob false "m" = { sent := CleanupSent.next cEightJob, removed := [] } :=
  ⟨rfl, cleanupImage_noResource cEightJob false "m" rfl⟩

/-- C9: `Init` rejects the pipeline whenever any stage worker count is
below 1, and returns it with no error when all three counts are at least 1
and both a source and an output are set. -/
theorem Init_validates (cfg : InitConfig) :
    ((cfg.nDownload < 1 ∨ cfg.nSummarize < 1 ∨ cfg.nCleanup < 1) →
      Init cfg = some "Pipeline config values for workers must be greater than 0") ∧
    (1 ≤ cfg.nDownload → 1 ≤ cfg.nSummarize → 1 ≤ cfg.nCleanup →
      cfg.hasSource = true → cfg.hasOutput = true → Init cfg = none) := by
  constructor
  · intro h
    have hc : cfg.nDownload ≤ 0 ∨ cfg.nSummarize ≤ 0 ∨ cfg.nCleanup ≤ 0 := by omega
    simp [Init, hc]
  · intro h1 h2 h3 hs ho
    have hc : ¬(cfg.nDownload ≤ 0 ∨ cfg.nSummarize ≤ 0 ∨ cfg.nCleanup ≤ 0) := by omega
    simp [Init, hc, hs, ho]

/-- C9 witness: a zero download count is rejected; the default counts with
source and output set are accepted. -/
theorem Init_validates_witness :
    (cNineBad.nDownload < 1 ∨ cNineBad.nSummarize < 1 ∨ cNineBad.nCleanup < 1) ∧
    Init cNineBad = some "Pipeline config values for workers must be greater than 0" ∧
    Init cNineGood = none :=
  ⟨Or.inl (by decide),
   (Init_validates cNineBad).1 (Or.inl (by decide)),
   (Init_validates cNineGood).2 (by decide) (by decide) (by decide) rfl rfl⟩

/-- C10: the row written for a successfully summarized image is the URL
followed by exactly three fields of the form `#rrggbb` (lowercase hex, two
digits per channel, alpha omitted), joined by commas, terminated by
exactly one newline (the part before the final newline contains none, given
a newline-free URL); images with fewer than three distinct colors fill the
remaining slots with the placeholder, whose field is black `#000000`. -/
theorem writeResults_row_format (j : RqJob) (pixels : List NRGBA)
    (hsum : j.image.summary = getPrevalentColors pixels)
    (hurl : ∀ ch ∈ j.image.URL.data, ch ≠ '\n') :
    ∃ h0 h1 h2 : String,
      GetHexSummary j.image = [h0, h1, h2] ∧
      isHexColorField h0 = true ∧ isHexColorField h1 = true ∧
      isHexColorField h2 = true ∧
      resultRow j = (j.image.URL ++ "," ++ h0 ++ "," ++ h1 ++ "," ++ h2) ++ "\n" ∧
      (∀ ch ∈ (j.image.URL ++ "," ++ h0 ++ "," ++ h1 ++ "," ++ h2).data, ch ≠ '\n') ∧
      hexify PlaceholderColor = "#000000" := by
  have hlen : j.image.summary.colors.length = 3 := by
    rw [hsum]
    exact getPrevalentColors_length pixels
  obtain ⟨c0, c1, c2, hcols⟩ := List.length_eq_three.mp hlen
  refine ⟨hexify c0, hexify c1, hexify c2, ?_, hexify_isHexColorField c0,
    hexify_isHexColorField c1, hexify_isHexColorField c2, ?_, ?_, by decide⟩
  · simp [GetHexSummary, hcols]
  · simp only [resultRow, GetHexSummary, hcols, List.map_cons, List.map_nil, goJoin]
    apply congrArg (fun t => t ++ "\n")
    apply String.ext
    simp [String.data_append, List.append_assoc]
  · intro ch hch
    simp only [String.data_append, List.mem_append, or_assoc] at hch
    rcases hch with h | h | h | h | h | h | h
    · exact hurl ch h
    · have h2 : ch ∈ [','] := h
      simp only [List.mem_singleton] at h2
      subst h2
      decide
    · exact hexify_mem_ne_newline c0 ch h
    · have h2 : ch ∈ [','] := h
      simp only [List.mem_singleton] at h2
      subst h2
      decide
    · exact hexify_mem_ne_newline c1 ch h
    · have h2 : ch ∈ [','] := h
      simp only [List.mem_singleton] at h2
      subst h2
      decide
    · exact hexify_mem_ne_newline c2 ch h

/-- C10 witness: the theorem at the one-pixel red image; its row is
`u,#ff0000,#000000,#000000` plus a newline. -/
theorem writeResults_row_format_witness :
    cTenJob.image.summary = getPrevalentColors cTenPixels ∧
    (∀ ch ∈ cTenJob.image.URL.data, ch ≠ '\n') ∧
    (∃ h0 h1 h2 : String,
      GetHexSummary cTenJob.image = [h0, h1, h2] ∧
      isHexColorField h0 = true ∧ isHexColorField h1 = true ∧
      isHexColorField h2 = true ∧
      resultRow cTenJob = (cTenJob.image.URL ++ "," ++ h0 ++ "," ++ h1 ++ "," ++ h2) ++ "\n" ∧
      (∀ ch ∈ (cTenJob.image.URL ++ "," ++ h0 ++ "," ++ h1 ++ "," ++ h2).data, ch ≠ '\n') ∧
      hexify PlaceholderColor = "#000000") :=
  ⟨rfl, by decide, writeResults_row_format cTenJob cTenPixels rfl (by decide)⟩

end Rquent
